import Mathlib

/-!
Verification of the coroutines library (src/src/Coroutines.c, src/src/Coroutines.h)
against its natural-language specification.

The C sources are shallowly embedded below.  Pointers to `Coroutine` records are
modelled as natural-number identifiers (`Nat`); `NULL` pointers become `none` of
an `Option` type.  C `int` fields that the code treats as signed counters
(`recursionLevel`, `numWaiters`, `numSignals`) are modelled as `Int`; the mutex
`type` bit set is modelled as `Nat` with the same bit masks as the source.
`void*` values passed through yield/resume are modelled as `Option Nat`
(`none` = NULL).  Each definition carries a reference to the source lines it
embeds.
-/

namespace Coroutines

/-! ## Status codes (Coroutines.h lines 68-72) -/

def coroutineSuccess : Int := 0

def coroutineBusy : Int := 1

def coroutineError : Int := 2

def coroutineNomem : Int := 3

def coroutineTimedout : Int := 4

/-! ## Mutex type bits (Coroutines.h lines 240-242) -/

def comutexPlain : Nat := 0

def comutexRecursive : Nat := 1

def comutexTimed : Nat := 2

/-! ## The Comutex record (Coroutines.h lines 256-261)

`lastYieldValue : void*`, `type : int`, `coroutine : Coroutine*` (the owner,
`none` = NULL = unowned), `recursionLevel : int`. -/

structure Comutex where
  lastYieldValue : Option Nat
  type : Nat
  coroutine : Option Nat
  recursionLevel : Int
  deriving DecidableEq, Repr

/-- Embedding of `comutexInit` (Coroutines.c lines 393-406), non-NULL path: sets
`lastYieldValue = NULL`, `type = type`, `coroutine = NULL`,
`recursionLevel = 0` and returns `coroutineSuccess`.  The NULL-mutex path
returns `coroutineError` and touches nothing. -/
def comutexInit (type : Nat) : Comutex :=
  { lastYieldValue := none, type := type, coroutine := none, recursionLevel := 0 }

/-- Embedding of `comutexTrylock` (Coroutines.c lines 539-559), non-NULL path.
`running` is the identifier of the coroutine at the head of the running list
(the caller).  Mirrors the source's `if`/`else if` chain:
`mtx->coroutine == NULL` claims the mutex with level 1;
`mtx->coroutine == running && (mtx->type & comutexRecursive)` increments the
level; `mtx->coroutine != running` is Busy; the remaining case (owner is the
caller, mutex not recursive) keeps the initial `returnValue = coroutineError`. -/
def comutexTrylock (running : Nat) (mtx : Comutex) : Int × Comutex :=
  match mtx.coroutine with
  | none =>
    (coroutineSuccess, { mtx with coroutine := some running, recursionLevel := 1 })
  | some owner =>
    if owner = running ∧ mtx.type &&& comutexRecursive ≠ 0 then
      (coroutineSuccess, { mtx with recursionLevel := mtx.recursionLevel + 1 })
    else if owner ≠ running then
      (coroutineBusy, mtx)
    else
      (coroutineError, mtx)

/-- Embedding of `comutexUnlock` (Coroutines.c lines 447-460), non-NULL path.  The guard in
the source is `(mtx != NULL) && (mtx->coroutine == running)`; here the
non-NULL conjunct is discharged by the wrapper `comutexUnlock` below.  On the
owner path the level is decremented and, exactly when it reaches zero, the
owner is cleared. -/
def comutexUnlockCore (running : Nat) (mtx : Comutex) : Int × Comutex :=
  if mtx.coroutine = some running then
    let lvl := mtx.recursionLevel - 1
    (coroutineSuccess,
      { mtx with recursionLevel := lvl,
                 coroutine := if lvl = 0 then none else mtx.coroutine })
  else
    (coroutineError, mtx)

/-- Embedding of `comutexUnlock` (Coroutines.c lines 447-460) including the NULL-mutex
case: a NULL mutex fails the guard and returns `coroutineError` with no state
change. -/
def comutexUnlock (running : Nat) : Option Comutex → Int × Option Comutex
  | none => (coroutineError, none)
  | some m =>
    let r := comutexUnlockCore running m
    (r.1, some r.2)

/-! ## Mutex operation sequences

`comutexLock` (Coroutines.c lines 420-434) mutates the mutex only through the
`comutexTrylock` call on line 429 and the `lastYieldValue` writes on lines 427
and 430; `comutexTimedlock` (lines 492-527) likewise mutates it only through
`comutexTrylock` (lines 506, 517) and `lastYieldValue` writes (lines 499,
516).  Any interleaved execution of `comutexInit`, `comutexTrylock`,
`comutexLock`, `comutexTimedlock` and `comutexUnlock` by any set of coroutines
therefore drives the mutex through a sequence of the atomic accesses below,
each performed by the coroutine `caller` that was running at that moment. -/

inductive MutexOp where
  | init (type : Nat)
  | trylock (caller : Nat)
  | unlock (caller : Nat)
  | setLastYield (v : Option Nat)
  deriving DecidableEq, Repr

/-- One atomic mutex access (see `MutexOp`). -/
def mutexStep (m : Comutex) : MutexOp → Comutex
  | .init t => comutexInit t
  | .trylock c => (comutexTrylock c m).2
  | .unlock c => (comutexUnlockCore c m).2
  | .setLastYield v => { m with lastYieldValue := v }

/-- The ownership invariant of spec section 3: unowned with level zero, or
owned by exactly one coroutine with level at least 1, level 2 or more only
for a mutex whose type has the Recursive bit. -/
def mutexInv (m : Comutex) : Prop :=
  (m.coroutine = none ∧ m.recursionLevel = 0) ∨
  ((∃ c, m.coroutine = some c) ∧ 1 ≤ m.recursionLevel ∧
    (2 ≤ m.recursionLevel → m.type &&& comutexRecursive ≠ 0))

/-- Iteration of `n` consecutive `comutexTrylock` calls by coroutine `c` (the successful
nested acquisitions performed by `comutexLock`, Coroutines.c line 429, when
the caller already owns a recursive mutex). -/
def iterTrylock (c : Nat) : Nat → Comutex → Comutex
  | 0, m => m
  | n + 1, m => (comutexTrylock c (iterTrylock c n m)).2

/-- Iteration of `n` consecutive `comutexUnlock` calls by coroutine `c`
(Coroutines.c lines 447-460). -/
def iterUnlock (c : Nat) : Nat → Comutex → Comutex
  | 0, m => m
  | n + 1, m => iterUnlock c n (comutexUnlockCore c m).2

/-! ## The Cocondition record (Coroutines.h lines 527-531)

`lastYieldValue : void*`, `numWaiters : int`, `numSignals : int`.  The newer
header (Coroutines.h lines 289-295) additionally declares `head`/`tail` queue
pointers, but no function in the sources ever reads or writes them, so they
are omitted here. -/

structure Cocondition where
  lastYieldValue : Option Nat
  numWaiters : Int
  numSignals : Int
  deriving DecidableEq, Repr

/-- Embedding of `coconditionInit` (Coroutines.c lines 624-636), non-NULL path: zeroes the
fields and returns `coroutineSuccess`. -/
def coconditionInit : Cocondition :=
  { lastYieldValue := none, numWaiters := 0, numSignals := 0 }

/-- Embedding of `coconditionDestroy` (Coroutines.c lines 608-614), non-NULL path: clears
`lastYieldValue` and `numWaiters` and sets `numSignals` to the destroyed
sentinel -1. -/
def coconditionDestroy (_cond : Cocondition) : Cocondition :=
  { lastYieldValue := none, numWaiters := 0, numSignals := -1 }

/-- Embedding of `coconditionSignal` (Coroutines.c lines 646-656), non-NULL path:
increments `numSignals` and returns `coroutineSuccess`.  (A NULL condition
returns `coroutineError` with no state change.) -/
def coconditionSignal (cond : Cocondition) : Int × Cocondition :=
  (coroutineSuccess, { cond with numSignals := cond.numSignals + 1 })

/-- Embedding of `coconditionBroadcast` (Coroutines.c lines 589-599), non-NULL path: sets
`numSignals` to `numWaiters` and returns `coroutineSuccess`. -/
def coconditionBroadcast (cond : Cocondition) : Int × Cocondition :=
  (coroutineSuccess, { cond with numSignals := cond.numWaiters })

/-! ## Blocking lock and condition waits

The blocking calls suspend inside `coroutineYield`; while the caller is
suspended, other coroutines run and may mutate the mutex or condition and
pass a value back to the yield.  A schedule entry records, for one loop
iteration, the value returned by `coroutineYield` and the state the shared
object has when the caller is next resumed. -/

/-- Loop of `comutexLock` (Coroutines.c lines 429-431).  Each failed
`comutexTrylock` consumes one schedule entry `(yieldValue, mutexAfterYield)`:
the yield returns `yieldValue` (stored into `lastYieldValue`) and other
coroutines may have replaced the mutex state with `mutexAfterYield`.  `none`
means the caller is still blocked when the schedule runs out. -/
def comutexLockLoop (caller : Nat) :
    List (Option Nat × Comutex) → Comutex → Option (Int × Comutex)
  | [], m =>
    if (comutexTrylock caller m).1 = coroutineSuccess then
      some (coroutineSuccess, (comutexTrylock caller m).2)
    else
      none
  | (y, menv) :: rest, m =>
    if (comutexTrylock caller m).1 = coroutineSuccess then
      some (coroutineSuccess, (comutexTrylock caller m).2)
    else
      comutexLockLoop caller rest { menv with lastYieldValue := y }

/-- Embedding of `comutexLock` (Coroutines.c lines 420-434), non-NULL path: clears
`lastYieldValue` (line 427) and loops `comutexTrylock`. -/
def comutexLock (caller : Nat) (mtx : Comutex)
    (sched : List (Option Nat × Comutex)) : Option (Int × Comutex) :=
  comutexLockLoop caller sched { mtx with lastYieldValue := none }

/-- One scheduler step seen by the while loop of `coconditionWait`: the value
the yield returns and the condition state after other coroutines ran. -/
structure CwStep where
  yieldValue : Option Nat
  newWaiters : Int
  newSignals : Int
  deriving DecidableEq, Repr

/-- Post-loop of `coconditionWait` (Coroutines.c lines 746-752):
`returnValue` is still `coroutineSuccess` from its initialization; the
positive branch decrements both counters and keeps it, the destroyed branch
(negative `numSignals`) turns it into `coroutineError`. -/
def cwFinish (cond : Cocondition) : Int × Cocondition :=
  if cond.numSignals > 0 then
    (coroutineSuccess,
      { cond with numSignals := cond.numSignals - 1,
                  numWaiters := cond.numWaiters - 1 })
  else
    (coroutineError, cond)

/-- While loop of `coconditionWait` (Coroutines.c lines 743-745): while
`numSignals == 0` yield; each resumption consumes one schedule entry.  `none`
means the waiter is still blocked when the schedule runs out. -/
def cwLoop : List CwStep → Cocondition → Option (Int × Cocondition)
  | [], cond =>
    if cond.numSignals = 0 then none else some (cwFinish cond)
  | s :: rest, cond =>
    if cond.numSignals = 0 then
      cwLoop rest
        { lastYieldValue := s.yieldValue, numWaiters := s.newWaiters,
          numSignals := s.newSignals }
    else
      some (cwFinish cond)

/-- Embedding of `coconditionWait` (Coroutines.c lines 730-756), non-NULL path: clear
`lastYieldValue`, `comutexUnlock(mtx)` (result ignored), increment
`numWaiters`, run the wait loop, then reacquire the mutex with
`comutexLock`. -/
def coconditionWait (caller : Nat) (cond : Cocondition) (mtx : Comutex)
    (sched : List CwStep) (lockSched : List (Option Nat × Comutex)) :
    Option (Int × Cocondition × Comutex) :=
  let cond1 : Cocondition := { cond with lastYieldValue := none }
  let mtx1 := (comutexUnlockCore caller mtx).2
  let cond2 : Cocondition := { cond1 with numWaiters := cond1.numWaiters + 1 }
  match cwLoop sched cond2 with
  | none => none
  | some (rv, cond3) =>
    match comutexLock caller mtx1 lockSched with
    | none => none
    | some (_, mtx2) => some (rv, cond3, mtx2)

/-- Result of one `timespec_get` call inside `conditionTimedwait`
(Coroutines.c lines 691-692): the current time in nanoseconds, or a failure
of the time source. -/
inductive TimeGet where
  | ok (nowns : Nat)
  | err
  deriving DecidableEq, Repr

/-- One scheduler step seen by the while loop of `conditionTimedwait`: the
yield return value, the condition state after other coroutines ran, and the
result of the `timespec_get` call made after the resumption. -/
structure CtwStep where
  yieldValue : Option Nat
  newWaiters : Int
  newSignals : Int
  timeGet : TimeGet
  deriving DecidableEq, Repr

/-- Post-loop of `conditionTimedwait` (Coroutines.c lines 706-713).  Both
branches assign `returnValue`, so the value the loop broke with
(`_returnValue`, which is `coroutineTimedout` on the deadline path) is
discarded: the result is `coroutineSuccess` when `numSignals > 0` and
`coroutineError` otherwise. -/
def ctwFinish (_returnValue : Int) (cond : Cocondition) : Int × Cocondition :=
  if cond.numSignals > 0 then
    (coroutineSuccess,
      { cond with numSignals := cond.numSignals - 1,
                  numWaiters := cond.numWaiters - 1 })
  else
    (coroutineError, cond)

/-- While loop of `conditionTimedwait` (Coroutines.c lines 688-705): while
`numSignals == 0`, yield, then check the clock; past the deadline `tsns` the
loop breaks with `coroutineTimedout`; a failed `timespec_get` with
`numSignals` still 0 breaks with `coroutineError`; a normal exit carries the
initial `coroutineSuccess`.  Whatever value the loop ends with is handed to
`ctwFinish`, which overwrites it. -/
def ctwLoop (tsns : Nat) : List CtwStep → Cocondition → Option (Int × Cocondition)
  | [], cond =>
    if cond.numSignals = 0 then none
    else some (ctwFinish coroutineSuccess cond)
  | s :: rest, cond =>
    if cond.numSignals = 0 then
      let cond' : Cocondition :=
        { lastYieldValue := s.yieldValue, numWaiters := s.newWaiters,
          numSignals := s.newSignals }
      match s.timeGet with
      | .ok nowns =>
        if nowns > tsns then some (ctwFinish coroutineTimedout cond')
        else ctwLoop tsns rest cond'
      | .err =>
        if cond'.numSignals = 0 then some (ctwFinish coroutineError cond')
        else ctwLoop tsns rest cond'
    else
      some (ctwFinish coroutineSuccess cond)

/-- Embedding of `conditionTimedwait` (Coroutines.c lines 673-717), non-NULL path: clear
`lastYieldValue`, `comutexUnlock(mtx)`, increment `numWaiters`, run the timed
wait loop against deadline `tsns` (nanoseconds), then reacquire the mutex. -/
def conditionTimedwait (caller : Nat) (cond : Cocondition) (mtx : Comutex)
    (tsns : Nat) (sched : List CtwStep)
    (lockSched : List (Option Nat × Comutex)) :
    Option (Int × Cocondition × Comutex) :=
  let cond1 : Cocondition := { cond with lastYieldValue := none }
  let mtx1 := (comutexUnlockCore caller mtx).2
  let cond2 : Cocondition := { cond1 with numWaiters := cond1.numWaiters + 1 }
  match ctwLoop tsns sched cond2 with
  | none => none
  | some (rv, cond3) =>
    match comutexLock caller mtx1 lockSched with
    | none => none
    | some (_, mtx2) => some (rv, cond3, mtx2)

/-! ## Per-waiter view of the wait loop, for wakeup-order reasoning

When several coroutines are blocked inside `coconditionWait` on the same
condition, each resumption of one waiter executes: store the yield's return
value into `lastYieldValue` (line 744), re-test the loop condition
(line 743), and on loop exit run the post-loop (lines 746-752). -/

/-- The loop test plus post-loop of `coconditionWait`: `none` means the
waiter stays blocked (yields again); `some rv` means its wait call returns
`rv`. -/
def waiterCheck (cond : Cocondition) : Option Int × Cocondition :=
  if cond.numSignals = 0 then
    (none, cond)
  else if cond.numSignals > 0 then
    (some coroutineSuccess,
      { cond with numSignals := cond.numSignals - 1,
                  numWaiters := cond.numWaiters - 1 })
  else
    (some coroutineError, cond)

/-- A coroutine entering `coconditionWait` (lines 737-745): clear
`lastYieldValue`, increment `numWaiters`, then test the loop for the first
time.  (The mutex hand-off is modelled separately by `comutexUnlockCore` /
`comutexLock`.) -/
def waitEnter (cond : Cocondition) : Option Int × Cocondition :=
  waiterCheck
    { cond with lastYieldValue := none, numWaiters := cond.numWaiters + 1 }

/-- A blocked waiter being resumed (lines 743-752): the yield returns `y`,
which is stored into `lastYieldValue`, then the loop re-tests. -/
def waiterResume (y : Option Nat) (cond : Cocondition) : Option Int × Cocondition :=
  waiterCheck { cond with lastYieldValue := y }

/-- A concrete condition with two blocked waiters and one pending signal. -/
def condTwoWaitersOneSignal : Cocondition :=
  { lastYieldValue := none, numWaiters := 2, numSignals := 1 }

/-! ## The scheduler world: running list, idle list, coroutine states

Per-thread state of the runtime (Coroutines.h lines 628-652 for the
single-thread globals; Coroutines.h lines 696-725 for the thread-local
equivalents).  Coroutine records are identified by naturals; the distinguished
`first` record of the host thread is id 0.  `runList` and `idleList` are the
LIFO lists linked through the `next` field: the head of `runList` is the
`running` pointer, and the `next` field of a record is the element after it
on whichever list it is on, or NULL.  `st` is each record's `state` field
(enum `CoroutineState`, Coroutines.h lines 446-451; zero-initialized records
start as NOT_RUNNING).  `fresh` marks records that were carved by
`coroutineStart` but never yet activated (such a record is suspended at the
first `coroutinePass` in `coroutineMain` and will carve a successor on its
first activation).  `saved` is the static value slot written by
`coroutinePass` (Coroutines.h lines 688-691).  `nextId` is a source of
unused identifiers for newly carved records. -/

inductive CoroState where
  | notRunning
  | running
  | blocked
  deriving DecidableEq, Repr

structure SchedWorld where
  runList : List Nat
  idleList : List Nat
  st : Nat → CoroState
  fresh : Nat → Bool
  saved : Option Nat
  nextId : Nat

/-- Pointwise update of a state table. -/
def updSt (f : Nat → CoroState) (i : Nat) (v : CoroState) : Nat → CoroState :=
  fun j => if j = i then v else f j

/-- Pointwise update of a flag table. -/
def updFlag (f : Nat → Bool) (i : Nat) (v : Bool) : Nat → Bool :=
  fun j => if j = i then v else f j

/-- The value of a record's `next` field derived from its position on a list:
`some v` means the record is on the list and its `next` field holds `v`
(`none` = NULL for the last element). -/
def nextInList : List Nat → Nat → Option (Option Nat)
  | [], _ => none
  | x :: rest, c => if c = x then some rest.head? else nextInList rest c

/-- The `next` field of record `c`: its successor on the running or idle
list, NULL for the last element of either list, and NULL when it is on
neither list (`coroutinePop`, Coroutines.h line 682, clears `next`). -/
def nextPtrW (w : SchedWorld) (c : Nat) : Option Nat :=
  match nextInList w.runList c with
  | some v => v
  | none =>
    match nextInList w.idleList c with
    | some v => v
    | none => none

/-- Embedding of `coroutineResumable` (Coroutines.c lines 86-88):
`(coro != NULL) && (coro->next == NULL)`. -/
def coroutineResumable (w : SchedWorld) (t : Option Nat) : Bool :=
  match t with
  | none => false
  | some c => (nextPtrW w c).isNone

/-- Outcome of `coroutineResume` as seen at the call site: either the
sentinel `COROUTINE_NOT_RESUMABLE` is returned at once, or control switches
to the target. -/
inductive ResumeOutcome where
  | notResumable
  | switchedTo (target : Nat)
  deriving DecidableEq, Repr

/-- Immediate effect of `coroutineResume` (Coroutines.h lines 885-905,
Coroutines.c lines 177-188): a resumable target is pushed onto the running
list (`coroutinePush`, line 896) and `coroutinePass` stores `arg` in the
`saved` slot and switches to it; otherwise `COROUTINE_NOT_RESUMABLE` is
returned with nothing modified. -/
def coroutineResume (w : SchedWorld) (t : Option Nat) (arg : Option Nat) :
    SchedWorld × ResumeOutcome :=
  match t with
  | none => (w, .notResumable)
  | some c =>
    if (nextPtrW w c).isNone then
      ({ w with runList := c :: w.runList, saved := arg }, .switchedTo c)
    else
      (w, .notResumable)

/-- Outcome of `coroutineYield` at the call site: the first coroutine gets
NULL back immediately; any other caller is popped and control switches
away. -/
inductive YieldOutcome where
  | returnedNull
  | switched (popped : Nat)
  deriving DecidableEq, Repr

/-- Embedding of `coroutineYield` (Coroutines.h lines 917-940): if the head of the running
list is the first coroutine (`running == first`, id 0), return NULL with no
change (line 937); otherwise pop the caller, set its state to BLOCKED
(line 933), store `arg` in the `saved` slot and switch to the new head.  The
empty-list case is unreachable: `running` is initialized to `&first` and the
pop is guarded. -/
def coroutineYield (w : SchedWorld) (arg : Option Nat) :
    SchedWorld × YieldOutcome :=
  match w.runList with
  | [] => (w, .returnedNull)
  | c :: rest =>
    if c = 0 then
      (w, .returnedNull)
    else
      ({ w with runList := rest, st := updSt w.st c .blocked, saved := arg },
        .switched c)

/-- When a resumed coroutine regains control it is inside its suspended
`coroutineYield`, which sets its state back to RUNNING (Coroutines.h
line 935). -/
def resumeWake (w : SchedWorld) (c : Nat) : SchedWorld :=
  { w with st := updSt w.st c .running }

/-- Net effect of `coroutineResume` of a coroutine blocked in
`coroutineYield`, by the next observation point: push plus the target's
wake-up. -/
def resumeEffect (w : SchedWorld) (c : Nat) (arg : Option Nat) : SchedWorld :=
  resumeWake (coroutineResume w (some c) arg).1 c

/-- Net effect of `coroutineCreate` (Coroutines.h lines 959-995) when the
idle list is empty, by the time create returns.  Trace: the constructor
carves a record `k1 = nextId` (`coroutineStart`/`coroutineMain`, lines
1024-1044: `k1` pushes itself on idle and passes back), pops it, resumes it
with the function pointer; on this first activation `k1` carves a successor
`k2 = nextId + 1` (lines 1058-1060; `k2` parks on idle) and then yields its
own address (line 1071), leaving itself BLOCKED off both lists; `k2` is
zero-initialized, hence NOT_RUNNING and not fresh-activated yet. -/
def createEmptyEffect (w : SchedWorld) : SchedWorld :=
  { w with
    idleList := [w.nextId + 1],
    st := updSt (updSt w.st w.nextId .blocked) (w.nextId + 1) .notRunning,
    fresh := updFlag (updFlag w.fresh w.nextId false) (w.nextId + 1) true,
    saved := some w.nextId,
    nextId := w.nextId + 2 }

/-- Net effect of `coroutineCreate` when the head `c` of the idle list is a
fresh carved record: `c` is popped and activated, carves a successor
`nextId` which parks at the head of the idle list, then yields its address
and is BLOCKED off both lists. -/
def createFreshEffect (w : SchedWorld) (c : Nat) (rest : List Nat) :
    SchedWorld :=
  { w with
    idleList := w.nextId :: rest,
    st := updSt w.st c .blocked,
    fresh := updFlag (updFlag w.fresh c false) w.nextId true,
    saved := some c,
    nextId := w.nextId + 1 }

/-- Net effect of `coroutineCreate` when the head `c` of the idle list is a
recycled record (one that completed a function earlier): it is popped,
wakes inside its main loop (Coroutines.h line 1088), does not carve, yields
its address and is BLOCKED off both lists. -/
def createRecycledEffect (w : SchedWorld) (c : Nat) (rest : List Nat) :
    SchedWorld :=
  { w with
    idleList := rest,
    st := updSt w.st c .blocked,
    saved := some c }

/-- Net effect of a coroutine's user function returning (`coroutineMain`,
Coroutines.h lines 1076-1088): the head `c` of the running list pops itself,
sets its state to NOT_RUNNING, pushes itself onto the idle list, and passes
its return value back. -/
def completeEffect (w : SchedWorld) (c : Nat) (rest : List Nat)
    (ret : Option Nat) : SchedWorld :=
  { w with
    runList := rest,
    idleList := c :: w.idleList,
    st := updSt w.st c .notRunning,
    saved := ret }

/-- The initial world of a host thread: the running list holds only the
`first` record (id 0), which is zero-initialized (state NOT_RUNNING), and
the idle list is empty (Coroutines.h lines 628-652). -/
def initialWorld : SchedWorld :=
  { runList := [0], idleList := [], st := fun _ => .notRunning,
    fresh := fun _ => false, saved := none, nextId := 1 }

/-- One observable operation of the runtime, at the granularity of the claim
"sequences of create, resume, and yield operations" (observation points lie
between operations).  `resumeOp` covers resuming a coroutine blocked in
`coroutineYield` (the only targets normal code can reach: completed
coroutines sit above the idle bottom with a non-NULL `next`, and running
coroutines sit above `first`); resuming the bottom-most idle record, which
`coroutineResumable` also admits, corrupts the lists and is treated
separately in the analysis of `coroutineResume`. -/
inductive SchedStep : SchedWorld → SchedWorld → Prop where
  | yieldOp (w : SchedWorld) (arg : Option Nat) :
      SchedStep w (coroutineYield w arg).1
  | resumeOp (w : SchedWorld) (c : Nat) (arg : Option Nat)
      (hb : w.st c = .blocked) (hr : nextPtrW w c = none) :
      SchedStep w (resumeEffect w c arg)
  | resumeFailOp (w : SchedWorld) (t : Option Nat)
      (hn : coroutineResumable w t = false) :
      SchedStep w w
  | completeOp (w : SchedWorld) (c : Nat) (rest : List Nat) (ret : Option Nat)
      (hw : w.runList = c :: rest) (hc : c ≠ 0) :
      SchedStep w (completeEffect w c rest ret)
  | createEmptyOp (w : SchedWorld) (hidle : w.idleList = []) :
      SchedStep w (createEmptyEffect w)
  | createFreshOp (w : SchedWorld) (c : Nat) (rest : List Nat)
      (hidle : w.idleList = c :: rest) (hf : w.fresh c = true) :
      SchedStep w (createFreshEffect w c rest)
  | createRecycledOp (w : SchedWorld) (c : Nat) (rest : List Nat)
      (hidle : w.idleList = c :: rest) (hf : w.fresh c = false) :
      SchedStep w (createRecycledEffect w c rest)

/-- Worlds reachable from the initial world by create/resume/yield/completion
operations. -/
def SchedReachable (w : SchedWorld) : Prop :=
  Relation.ReflTransGen SchedStep initialWorld w

/-- The reachable world in which coroutine 1 resumed coroutine 2: two create
calls, then `resume 1` from the first coroutine, then `resume 2` from inside
coroutine 1. -/
def nestedResumeWorld : SchedWorld :=
  resumeEffect
    (resumeEffect (createFreshEffect (createEmptyEffect initialWorld) 2 []) 1
      none)
    2 none

/-- A world with three stacked resumes and one idle record, used to exercise
`coroutineResume` on targets with a non-NULL `next` link. -/
def stackedRunWorld : SchedWorld :=
  { runList := [2, 1, 0], idleList := [3], st := fun _ => .notRunning,
    fresh := fun _ => false, saved := none, nextId := 4 }

/-- Structural invariant of the scheduler world, maintained by every
operation: every coroutine whose state field is RUNNING is on the running
list; a BLOCKED coroutine is on neither list; the lists are duplicate-free
and disjoint; list members have allocated ids; unallocated ids are
NOT_RUNNING; the first record (id 0) never leaves state NOT_RUNNING and is
never on the idle list. -/
structure SchedInv (w : SchedWorld) : Prop where
  running_mem : ∀ c, w.st c = CoroState.running → c ∈ w.runList
  blocked_off : ∀ c, w.st c = CoroState.blocked →
    c ∉ w.runList ∧ c ∉ w.idleList
  run_nodup : w.runList.Nodup
  idle_nodup : w.idleList.Nodup
  run_idle_disjoint : ∀ c, c ∈ w.runList → c ∉ w.idleList
  run_lt : ∀ c, c ∈ w.runList → c < w.nextId
  idle_lt : ∀ c, c ∈ w.idleList → c < w.nextId
  tail_notRunning : ∀ c, w.nextId ≤ c → w.st c = CoroState.notRunning
  first_notRunning : w.st 0 = CoroState.notRunning
  idle_nonzero : ∀ c, c ∈ w.idleList → c ≠ 0
  nextId_pos : 0 < w.nextId

end Coroutines

namespace Coroutines

/-! ## Theorems for claims C1 and C5 -/

/-- Claim C1: a single call to `comutexTrylock` decides exactly by the
four-case table: owner NULL ⇒ claim with level 1 and Success; owner = caller
and Recursive bit ⇒ level + 1 and Success; owner = caller without the
Recursive bit ⇒ Error; owner = another coroutine ⇒ Busy.  In each case the
fields not mentioned are unchanged. -/
theorem comutexTrylock_four_cases (self : Nat) (mtx : Comutex) :
    (mtx.coroutine = none →
      comutexTrylock self mtx =
        (coroutineSuccess, { mtx with coroutine := some self, recursionLevel := 1 })) ∧
    (mtx.coroutine = some self → mtx.type &&& comutexRecursive ≠ 0 →
      comutexTrylock self mtx =
        (coroutineSuccess, { mtx with recursionLevel := mtx.recursionLevel + 1 })) ∧
    (mtx.coroutine = some self → mtx.type &&& comutexRecursive = 0 →
      comutexTrylock self mtx = (coroutineError, mtx)) ∧
    (∀ other, mtx.coroutine = some other → other ≠ self →
      comutexTrylock self mtx = (coroutineBusy, mtx)) := by
  refine ⟨?_, ?_, ?_, ?_⟩
  · intro h
    simp [comutexTrylock, h]
  · intro h hrec
    simp [comutexTrylock, h, hrec]
  · intro h hrec
    simp [comutexTrylock, h, hrec, coroutineError]
  · intro other h hne
    simp [comutexTrylock, h, hne]

/-- Witness for `comutexTrylock_four_cases`: evaluating the first (unowned)
case at a concrete mutex. -/
theorem comutexTrylock_four_cases_witness :
    comutexTrylock 7 (comutexInit comutexRecursive) =
      (coroutineSuccess,
        { lastYieldValue := none, type := comutexRecursive,
          coroutine := some 7, recursionLevel := 1 }) :=
  (comutexTrylock_four_cases 7 (comutexInit comutexRecursive)).1 rfl

/-- Claim C5: `comutexUnlock` returns Success exactly when the mutex is
non-NULL and the caller owns it, in which case the level is decremented and
the owner cleared exactly when the level reaches zero; a non-owner caller or a
NULL mutex gets Error with the state unchanged. -/
theorem comutexUnlock_owner_only (caller : Nat) (mo : Option Comutex) :
    ((comutexUnlock caller mo).1 = coroutineSuccess ↔
      ∃ m, mo = some m ∧ m.coroutine = some caller) ∧
    (∀ m, mo = some m → m.coroutine = some caller →
      comutexUnlock caller mo =
        (coroutineSuccess, some
          { m with recursionLevel := m.recursionLevel - 1,
                   coroutine :=
                     if m.recursionLevel - 1 = 0 then none else some caller })) ∧
    (∀ m, mo = some m → m.coroutine ≠ some caller →
      comutexUnlock caller mo = (coroutineError, some m)) ∧
    (mo = none → comutexUnlock caller mo = (coroutineError, none)) := by
  refine ⟨?_, ?_, ?_, ?_⟩
  · constructor
    · intro h
      match mo with
      | none => simp [comutexUnlock, coroutineError, coroutineSuccess] at h
      | some m =>
        refine ⟨m, rfl, ?_⟩
        by_contra hne
        simp [comutexUnlock, comutexUnlockCore, hne, coroutineError,
          coroutineSuccess] at h
    · rintro ⟨m, rfl, hown⟩
      simp [comutexUnlock, comutexUnlockCore, hown]
  · rintro m rfl hown
    simp [comutexUnlock, comutexUnlockCore, hown]
  · rintro m rfl hne
    simp [comutexUnlock, comutexUnlockCore, hne]
  · rintro rfl
    rfl

/-- Helper: `comutexTrylock` on an unowned mutex claims it at level 1. -/
theorem comutexTrylock_unowned (self : Nat) (mtx : Comutex)
    (h : mtx.coroutine = none) :
    comutexTrylock self mtx =
      (coroutineSuccess,
        { mtx with coroutine := some self, recursionLevel := 1 }) := by
  simp [comutexTrylock, h]

/-- Helper: `comutexTrylock` by the owner of a recursive mutex increments the
level. -/
theorem comutexTrylock_owner_recursive (self : Nat) (mtx : Comutex)
    (h : mtx.coroutine = some self) (hrec : mtx.type &&& comutexRecursive ≠ 0) :
    comutexTrylock self mtx =
      (coroutineSuccess,
        { mtx with recursionLevel := mtx.recursionLevel + 1 }) := by
  simp [comutexTrylock, h, hrec]

/-- Helper: `comutexTrylock` by the owner of a non-recursive mutex fails with
Error and changes nothing. -/
theorem comutexTrylock_owner_plain (self : Nat) (mtx : Comutex)
    (h : mtx.coroutine = some self) (hrec : mtx.type &&& comutexRecursive = 0) :
    comutexTrylock self mtx = (coroutineError, mtx) := by
  simp [comutexTrylock, h, hrec, coroutineError]

/-- Helper: `comutexTrylock` against a mutex owned by another coroutine is
Busy and changes nothing. -/
theorem comutexTrylock_busy (self other : Nat) (mtx : Comutex)
    (h : mtx.coroutine = some other) (hne : other ≠ self) :
    comutexTrylock self mtx = (coroutineBusy, mtx) := by
  simp [comutexTrylock, h, hne]

/-- Helper: on the owner path, `comutexUnlockCore` decrements the level and
clears the owner exactly when the new level is zero. -/
theorem comutexUnlockCore_owner (c : Nat) (m : Comutex)
    (hown : m.coroutine = some c) :
    (comutexUnlockCore c m).2 =
      { m with recursionLevel := m.recursionLevel - 1,
               coroutine :=
                 if m.recursionLevel - 1 = 0 then none else some c } := by
  simp [comutexUnlockCore, hown]

/-- Helper: each atomic mutex access preserves `mutexInv`. -/
theorem mutexInv_step (m : Comutex) (op : MutexOp) (h : mutexInv m) :
    mutexInv (mutexStep m op) := by
  cases op with
  | init t =>
    exact Or.inl ⟨rfl, rfl⟩
  | setLastYield v =>
    simpa [mutexInv, mutexStep] using h
  | trylock c =>
    show mutexInv (comutexTrylock c m).2
    rcases hm : m.coroutine with _ | owner
    · rw [comutexTrylock_unowned c m hm]
      right
      refine ⟨⟨c, rfl⟩, ?_, ?_⟩
      · show (1 : Int) ≤ 1
        norm_num
      · intro h2
        have h2' : (2 : Int) ≤ 1 := h2
        omega
    · rcases h with ⟨h1, _⟩ | ⟨_, hlvl, hrec⟩
      · rw [hm] at h1
        exact absurd h1 (by simp)
      · by_cases heq : owner = c
        · subst heq
          by_cases hr : m.type &&& comutexRecursive ≠ 0
          · rw [comutexTrylock_owner_recursive owner m hm hr]
            right
            refine ⟨⟨owner, hm⟩, ?_, fun _ => hr⟩
            show (1 : Int) ≤ m.recursionLevel + 1
            omega
          · rw [comutexTrylock_owner_plain owner m hm (not_not.mp hr)]
            exact Or.inr ⟨⟨owner, hm⟩, hlvl, hrec⟩
        · rw [comutexTrylock_busy c owner m hm heq]
          exact Or.inr ⟨⟨owner, hm⟩, hlvl, hrec⟩
  | unlock c =>
    show mutexInv (comutexUnlockCore c m).2
    by_cases hown : m.coroutine = some c
    · rw [comutexUnlockCore_owner c m hown]
      rcases h with ⟨h1, _⟩ | ⟨_, hlvl, hrec⟩
      · rw [hown] at h1
        exact absurd h1 (by simp)
      · by_cases hz : m.recursionLevel - 1 = 0
        · rw [if_pos hz]
          exact Or.inl ⟨rfl, hz⟩
        · rw [if_neg hz]
          refine Or.inr ⟨⟨c, rfl⟩, ?_, ?_⟩
          · show (1 : Int) ≤ m.recursionLevel - 1
            omega
          · intro h2
            have h2' : (2 : Int) ≤ m.recursionLevel - 1 := h2
            exact hrec (by omega)
    · have : (comutexUnlockCore c m).2 = m := by
        simp [comutexUnlockCore, hown]
      rw [this]
      exact h

/-- Claim C4: starting from `comutexInit`, every sequence of mutex operations
(`comutexInit`, `comutexTrylock`, `comutexLock`, `comutexTimedlock`,
`comutexUnlock`, decomposed into the atomic accesses of `MutexOp`) leaves the
mutex either unowned with recursion level 0, or owned by exactly one coroutine
with level at least 1, where level 2 or more requires the Recursive type bit. -/
theorem mutexSeq_invariant (t : Nat) (ops : List MutexOp) :
    mutexInv (ops.foldl mutexStep (comutexInit t)) := by
  have aux : ∀ (l : List MutexOp) (m : Comutex), mutexInv m →
      mutexInv (l.foldl mutexStep m) := by
    intro l
    induction l with
    | nil => intro m hm; exact hm
    | cons op rest ih =>
      intro m hm
      exact ih (mutexStep m op) (mutexInv_step m op hm)
  exact aux ops (comutexInit t) (Or.inl ⟨rfl, rfl⟩)

/-- Helper for claim C6: `n + 1` trylocks by `c` on a freshly initialized
recursive mutex leave it owned by `c` at level `n + 1`. -/
theorem iterTrylock_recursive (c : Nat) (t : Nat) (n : Nat)
    (hrec : t &&& comutexRecursive ≠ 0) :
    iterTrylock c (n + 1) (comutexInit t) =
      { lastYieldValue := none, type := t, coroutine := some c,
        recursionLevel := (n : Int) + 1 } := by
  induction n with
  | zero =>
    simp [iterTrylock, comutexInit, comutexTrylock]
  | succ k ih =>
    show (comutexTrylock c (iterTrylock c (k + 1) (comutexInit t))).2 = _
    rw [ih]
    have hstep : comutexTrylock c
        { lastYieldValue := none, type := t, coroutine := some c,
          recursionLevel := (k : Int) + 1 } =
        (coroutineSuccess,
          { lastYieldValue := none, type := t, coroutine := some c,
            recursionLevel := ((k : Int) + 1) + 1 }) := by
      show (if c = c ∧ t &&& comutexRecursive ≠ 0 then _ else _) = _
      rw [if_pos ⟨rfl, hrec⟩]
    rw [hstep]
    have hcast : (((k : Nat) + 1 : Nat) : Int) + 1 = ((k : Int) + 1) + 1 := by
      push_cast
      ring
    rw [hcast]

/-- Helper for claim C6: `n + 1` unlocks by the owner `c` of a mutex at level
`n + 1` release it completely. -/
theorem iterUnlock_release (c : Nat) (t : Nat) (ly : Option Nat) (n : Nat) :
    iterUnlock c (n + 1)
        { lastYieldValue := ly, type := t, coroutine := some c,
          recursionLevel := (n : Int) + 1 } =
      { lastYieldValue := ly, type := t, coroutine := none,
        recursionLevel := 0 } := by
  induction n with
  | zero =>
    simp [iterUnlock, comutexUnlockCore]
  | succ k ih =>
    show iterUnlock c (k + 1) (comutexUnlockCore c _).2 = _
    have hcast : (((k : Nat) + 1 : Nat) : Int) + 1 = ((k : Int) + 1) + 1 := by
      push_cast
      ring
    rw [hcast]
    have hstep : (comutexUnlockCore c
        { lastYieldValue := ly, type := t, coroutine := some c,
          recursionLevel := ((k : Int) + 1) + 1 }).2 =
        { lastYieldValue := ly, type := t, coroutine := some c,
          recursionLevel := (k : Int) + 1 } := by
      rw [comutexUnlockCore_owner c _ rfl]
      have h1 : ((k : Int) + 1) + 1 - 1 = (k : Int) + 1 := by ring
      rw [h1]
      have h2 : ¬((k : Int) + 1 = 0) := by omega
      rw [if_neg h2]
    rw [hstep]
    exact ih

/-- Claim C6: for every recursive mutex and every N at least 1, N nested
successful acquisitions by one coroutine followed by N unlocks by that
coroutine leave the mutex released: owner NULL, recursion level 0. -/
theorem recursive_lock_unlock_balanced (c : Nat) (t : Nat) (n : Nat)
    (hn : 1 ≤ n) (hrec : t &&& comutexRecursive ≠ 0) :
    (iterUnlock c n (iterTrylock c n (comutexInit t))).coroutine = none ∧
    (iterUnlock c n (iterTrylock c n (comutexInit t))).recursionLevel = 0 := by
  obtain ⟨k, rfl⟩ : ∃ k, n = k + 1 := ⟨n - 1, by omega⟩
  rw [iterTrylock_recursive c t k hrec, iterUnlock_release c t none k]
  exact ⟨rfl, rfl⟩

/-- Witness for `recursive_lock_unlock_balanced`: three nested locks and three
unlocks by coroutine 5 on a recursive mutex release it. -/
theorem recursive_lock_unlock_balanced_witness :
    (iterUnlock 5 3 (iterTrylock 5 3 (comutexInit comutexRecursive))).coroutine
        = none ∧
    (iterUnlock 5 3 (iterTrylock 5 3
        (comutexInit comutexRecursive))).recursionLevel = 0 :=
  recursive_lock_unlock_balanced 5 comutexRecursive 3 (by norm_num) (by decide)

/-- Claim C2 (code bug): a `conditionTimedwait` during which no signal
arrives (`numSignals` stays 0) and whose deadline has passed is documented
(Coroutines.c lines 669-672) and specified to return `coroutineTimedout`, but
the post-loop at lines 706-713 overwrites the Timedout result: the call
returns `coroutineError` instead, and also leaves `numWaiters` incremented.
Concrete run: caller 1 holds a timed mutex, condition freshly initialized,
deadline 1000 ns, one loop iteration in which no signal arrives and the clock
reads 2000 ns. -/
theorem conditionTimedwait_error_not_timedout :
    conditionTimedwait 1
        { lastYieldValue := none, numWaiters := 0, numSignals := 0 }
        { lastYieldValue := none, type := comutexTimed, coroutine := some 1,
          recursionLevel := 1 }
        1000
        [{ yieldValue := none, newWaiters := 1, newSignals := 0,
           timeGet := .ok 2000 }]
        [] =
      some (coroutineError,
        { lastYieldValue := none, numWaiters := 1, numSignals := 0 },
        { lastYieldValue := none, type := comutexTimed, coroutine := some 1,
          recursionLevel := 1 }) := by
  rfl

/-- Claim C3 counterexample: coroutine A enters `coconditionWait`, then
coroutine B enters it, one `coconditionSignal` is posted, and the surrounding
scheduler resumes B first.  B's wait returns `coroutineSuccess` while A's
next resumption finds `numSignals` back at 0 and stays blocked: the single
signal woke B, not A, so wakeup is not FIFO. -/
theorem fifo_wakeup_counterexample :
    (waitEnter coconditionInit).1 = none ∧
    (waitEnter (waitEnter coconditionInit).2).1 = none ∧
    (waiterResume none
        (coconditionSignal (waitEnter (waitEnter coconditionInit).2).2).2).1 =
      some coroutineSuccess ∧
    (waiterResume none
        (waiterResume none
          (coconditionSignal
            (waitEnter (waitEnter coconditionInit).2).2).2).2).1 = none := by
  exact ⟨rfl, rfl, rfl, rfl⟩

/-- Claim C3 amended: a single signal is consumed by whichever blocked waiter
is resumed first after it, regardless of the order in which the waiters
called `coconditionWait`: any waiter resumed while `numSignals > 0` returns
`coroutineSuccess` and decrements both counters. -/
theorem signal_wakes_first_resumed (y : Option Nat) (cond : Cocondition)
    (h : 0 < cond.numSignals) :
    (waiterResume y cond).1 = some coroutineSuccess ∧
    ((waiterResume y cond).2).numSignals = cond.numSignals - 1 ∧
    ((waiterResume y cond).2).numWaiters = cond.numWaiters - 1 := by
  have h0 : ¬(cond.numSignals = 0) := by omega
  simp [waiterResume, waiterCheck, h0, h]

/-- Witness for `signal_wakes_first_resumed`: with two waiters and one
pending signal, the first waiter resumed returns Success. -/
theorem signal_wakes_first_resumed_witness :
    0 < condTwoWaitersOneSignal.numSignals ∧
    (waiterResume none condTwoWaitersOneSignal).1 = some coroutineSuccess :=
  ⟨by decide,
    (signal_wakes_first_resumed none condTwoWaitersOneSignal (by decide)).1⟩

/-- Helper for claim C10: if the wait loop starts with a non-negative signal
count and every scheduler step keeps the count non-negative, the loop can
only finish with `coroutineSuccess` (the destroyed-Error branch needs a
negative count). -/
theorem cwLoop_no_error (sched : List CwStep) :
    ∀ cond : Cocondition, 0 ≤ cond.numSignals →
      (∀ s ∈ sched, 0 ≤ s.newSignals) →
      ∀ rv c', cwLoop sched cond = some (rv, c') → rv = coroutineSuccess := by
  induction sched with
  | nil =>
    intro cond hc _ rv c' h
    by_cases h0 : cond.numSignals = 0
    · simp [cwLoop, h0] at h
    · have hpos : cond.numSignals > 0 := by omega
      simp [cwLoop, h0, cwFinish, hpos] at h
      exact h.1.symm
  | cons s rest ih =>
    intro cond hc hs rv c' h
    by_cases h0 : cond.numSignals = 0
    · simp only [cwLoop, h0, if_true] at h
      exact ih _ (hs s (by simp)) (fun x hx => hs x (by simp [hx])) rv c' h
    · have hpos : cond.numSignals > 0 := by omega
      simp [cwLoop, h0, cwFinish, hpos] at h
      exact h.1.symm

/-- Helper for claim C10: a `coconditionWait` on a condition with a
non-negative signal count, under scheduler steps that keep the count
non-negative, can only return `coroutineSuccess`. -/
theorem coconditionWait_no_error (caller : Nat) (cond : Cocondition)
    (mtx : Comutex) (sched : List CwStep)
    (lockSched : List (Option Nat × Comutex))
    (hc : 0 ≤ cond.numSignals) (hs : ∀ s ∈ sched, 0 ≤ s.newSignals) :
    ∀ rv c' m', coconditionWait caller cond mtx sched lockSched =
        some (rv, c', m') →
      rv = coroutineSuccess := by
  intro rv c' m' h
  simp only [coconditionWait] at h
  split at h
  · simp at h
  · rename_i rv0 cond3 heq
    split at h
    · simp at h
    · rename_i rq mq heq2
      simp only [Option.some.injEq, Prod.mk.injEq] at h
      obtain ⟨h1, -, -⟩ := h
      rw [← h1]
      refine cwLoop_no_error sched _ ?_ hs rv0 cond3 heq
      simpa using hc

/-- Claim C10: `coconditionDestroy` sets `numSignals` to the destroyed
sentinel -1; a single `coconditionSignal` afterwards increments it back to 0,
erasing the sentinel.  A coroutine that begins a `coconditionWait` after that
signal finds `numSignals = 0` and blocks normally (with no scheduler events
it stays blocked instead of returning), and as long as subsequent scheduler
steps keep `numSignals` non-negative (signals and broadcasts, no further
destroy) its wait can only return `coroutineSuccess`, never the Error that
the destroyed state produces. -/
theorem destroy_then_signal_resets (cond0 : Cocondition) (caller : Nat)
    (mtx : Comutex) (sched : List CwStep)
    (lockSched : List (Option Nat × Comutex))
    (hs : ∀ s ∈ sched, 0 ≤ s.newSignals) :
    ((coconditionSignal (coconditionDestroy cond0)).2).numSignals = 0 ∧
    coconditionWait caller ((coconditionSignal (coconditionDestroy cond0)).2)
        mtx [] [] = none ∧
    (∀ rv c' m',
      coconditionWait caller ((coconditionSignal (coconditionDestroy cond0)).2)
          mtx sched lockSched = some (rv, c', m') →
      rv = coroutineSuccess) := by
  refine ⟨by simp [coconditionSignal, coconditionDestroy], rfl, ?_⟩
  intro rv c' m' h
  have h0 : (0 : Int) ≤
      ((coconditionSignal (coconditionDestroy cond0)).2).numSignals := by
    simp [coconditionSignal, coconditionDestroy]
  exact coconditionWait_no_error caller _ mtx sched lockSched h0 hs rv c' m' h

/-- Witness for `destroy_then_signal_resets`: destroy, one signal, then a
wait that receives one more signal during its first suspension. -/
theorem destroy_then_signal_resets_witness :
    (∀ s ∈ [({ yieldValue := none, newWaiters := 1, newSignals := 1 } : CwStep)],
      0 ≤ s.newSignals) ∧
    ((coconditionSignal (coconditionDestroy coconditionInit)).2).numSignals = 0 ∧
    coconditionWait 1 ((coconditionSignal (coconditionDestroy coconditionInit)).2)
        (comutexInit comutexPlain) [] [] = none ∧
    (∀ rv c' m',
      coconditionWait 1 ((coconditionSignal (coconditionDestroy coconditionInit)).2)
          (comutexInit comutexPlain)
          [{ yieldValue := none, newWaiters := 1, newSignals := 1 }] [] =
        some (rv, c', m') →
      rv = coroutineSuccess) :=
  ⟨by decide,
    destroy_then_signal_resets coconditionInit 1 (comutexInit comutexPlain)
      [{ yieldValue := none, newWaiters := 1, newSignals := 1 }] [] (by decide)⟩

/-- Helper: updating a state table at `i` reads back `v` at `i`. -/
theorem updSt_self (f : Nat → CoroState) (i : Nat) (v : CoroState) :
    updSt f i v i = v := by
  simp [updSt]

/-- Helper: updating a state table at `i` leaves other indices unchanged. -/
theorem updSt_other (f : Nat → CoroState) (i : Nat) (v : CoroState) (j : Nat)
    (h : j ≠ i) : updSt f i v j = f j := by
  simp [updSt, h]

/-- Helper: the initial world satisfies the scheduler invariant. -/
theorem schedInv_initial : SchedInv initialWorld := by
  refine ⟨?_, ?_, ?_, ?_, ?_, ?_, ?_, ?_, ?_, ?_, ?_⟩ <;>
    simp [initialWorld]

/-- Helper: `coroutineYield` preserves the scheduler invariant. -/
theorem schedInv_yield (w : SchedWorld) (arg : Option Nat) (h : SchedInv w) :
    SchedInv (coroutineYield w arg).1 := by
  rcases hrl : w.runList with _ | ⟨c, rest⟩
  · have hred : (coroutineYield w arg).1 = w := by
      simp [coroutineYield, hrl]
    rw [hred]
    exact h
  · by_cases hc0 : c = 0
    · have hred : (coroutineYield w arg).1 = w := by
        simp [coroutineYield, hrl, hc0]
      rw [hred]
      exact h
    · have hred : (coroutineYield w arg).1 =
          { w with runList := rest, st := updSt w.st c CoroState.blocked,
                   saved := arg } := by
        simp [coroutineYield, hrl, hc0]
      rw [hred]
      have hcmem : c ∈ w.runList := by
        rw [hrl]
        exact List.mem_cons_self c rest
      have hnodup := h.run_nodup
      rw [hrl] at hnodup
      have hcnotrest : c ∉ rest := (List.nodup_cons.mp hnodup).1
      have hrestnd : rest.Nodup := (List.nodup_cons.mp hnodup).2
      refine ⟨?_, ?_, hrestnd, h.idle_nodup, ?_, ?_, h.idle_lt, ?_, ?_,
        h.idle_nonzero, h.nextId_pos⟩
      · intro d hd
        have hd' : updSt w.st c CoroState.blocked d = CoroState.running := hd
        by_cases hdc : d = c
        · subst hdc
          rw [updSt_self] at hd'
          exact absurd hd' (by simp)
        · rw [updSt_other _ _ _ _ hdc] at hd'
          have hmem := h.running_mem d hd'
          rw [hrl] at hmem
          rcases List.mem_cons.mp hmem with h1 | h1
          · exact absurd h1 hdc
          · exact h1
      · intro d hd
        have hd' : updSt w.st c CoroState.blocked d = CoroState.blocked := hd
        by_cases hdc : d = c
        · subst hdc
          exact ⟨hcnotrest, h.run_idle_disjoint d hcmem⟩
        · rw [updSt_other _ _ _ _ hdc] at hd'
          have hb := h.blocked_off d hd'
          refine ⟨fun hmem => hb.1 ?_, hb.2⟩
          rw [hrl]
          exact List.mem_cons_of_mem _ hmem
      · intro d hd
        refine h.run_idle_disjoint d ?_
        rw [hrl]
        exact List.mem_cons_of_mem _ hd
      · intro d hd
        refine h.run_lt d ?_
        rw [hrl]
        exact List.mem_cons_of_mem _ hd
      · intro d hdn
        have hdn' : w.nextId ≤ d := hdn
        have hdc : d ≠ c := by
          have := h.run_lt c hcmem
          omega
        show updSt w.st c CoroState.blocked d = CoroState.notRunning
        rw [updSt_other _ _ _ _ hdc]
        exact h.tail_notRunning d hdn'
      · show updSt w.st c CoroState.blocked 0 = CoroState.notRunning
        rw [updSt_other _ _ _ _ fun hx => hc0 hx.symm]
        exact h.first_notRunning

/-- Helper: resuming a coroutine blocked in `coroutineYield` preserves the
scheduler invariant. -/
theorem schedInv_resume (w : SchedWorld) (c : Nat) (arg : Option Nat)
    (h : SchedInv w) (hb : w.st c = CoroState.blocked)
    (hr : nextPtrW w c = none) : SchedInv (resumeEffect w c arg) := by
  have hred : resumeEffect w c arg =
      { w with runList := c :: w.runList,
               st := updSt w.st c CoroState.running, saved := arg } := by
    simp [resumeEffect, coroutineResume, resumeWake, hr]
  rw [hred]
  have hcoff := h.blocked_off c hb
  have hclt : c < w.nextId := by
    by_contra hx
    have hnr := h.tail_notRunning c (by omega)
    rw [hb] at hnr
    exact absurd hnr (by simp)
  have hc0 : c ≠ 0 := by
    intro hx
    subst hx
    rw [h.first_notRunning] at hb
    exact absurd hb (by simp)
  refine ⟨?_, ?_, ?_, h.idle_nodup, ?_, ?_, h.idle_lt, ?_, ?_,
    h.idle_nonzero, h.nextId_pos⟩
  · intro d hd
    have hd' : updSt w.st c CoroState.running d = CoroState.running := hd
    by_cases hdc : d = c
    · subst hdc
      exact List.mem_cons_self d w.runList
    · rw [updSt_other _ _ _ _ hdc] at hd'
      exact List.mem_cons_of_mem _ (h.running_mem d hd')
  · intro d hd
    have hd' : updSt w.st c CoroState.running d = CoroState.blocked := hd
    by_cases hdc : d = c
    · subst hdc
      rw [updSt_self] at hd'
      exact absurd hd' (by simp)
    · rw [updSt_other _ _ _ _ hdc] at hd'
      have hboff := h.blocked_off d hd'
      refine ⟨fun hmem => ?_, hboff.2⟩
      rcases List.mem_cons.mp hmem with h1 | h1
      · exact hdc h1
      · exact hboff.1 h1
  · exact List.nodup_cons.mpr ⟨hcoff.1, h.run_nodup⟩
  · intro d hd
    rcases List.mem_cons.mp hd with h1 | h1
    · subst h1
      exact hcoff.2
    · exact h.run_idle_disjoint d h1
  · intro d hd
    rcases List.mem_cons.mp hd with h1 | h1
    · subst h1
      exact hclt
    · exact h.run_lt d h1
  · intro d hdn
    have hdn' : w.nextId ≤ d := hdn
    have hdc : d ≠ c := by omega
    show updSt w.st c CoroState.running d = CoroState.notRunning
    rw [updSt_other _ _ _ _ hdc]
    exact h.tail_notRunning d hdn'
  · show updSt w.st c CoroState.running 0 = CoroState.notRunning
    rw [updSt_other _ _ _ _ fun hx => hc0 hx.symm]
    exact h.first_notRunning

/-- Helper: a coroutine completing its user function preserves the scheduler
invariant. -/
theorem schedInv_complete (w : SchedWorld) (c : Nat) (rest : List Nat)
    (ret : Option Nat) (h : SchedInv w) (hw : w.runList = c :: rest)
    (hc : c ≠ 0) : SchedInv (completeEffect w c rest ret) := by
  have hcmem : c ∈ w.runList := by
    rw [hw]
    exact List.mem_cons_self c rest
  have hnodup := h.run_nodup
  rw [hw] at hnodup
  have hcnotrest : c ∉ rest := (List.nodup_cons.mp hnodup).1
  have hrestnd : rest.Nodup := (List.nodup_cons.mp hnodup).2
  have hcnotidle := h.run_idle_disjoint c hcmem
  have hclt := h.run_lt c hcmem
  refine ⟨?_, ?_, hrestnd, ?_, ?_, ?_, ?_, ?_, ?_, ?_, h.nextId_pos⟩
  · intro d hd
    have hd' : updSt w.st c CoroState.notRunning d = CoroState.running := hd
    by_cases hdc : d = c
    · subst hdc
      rw [updSt_self] at hd'
      exact absurd hd' (by simp)
    · rw [updSt_other _ _ _ _ hdc] at hd'
      have hmem := h.running_mem d hd'
      rw [hw] at hmem
      rcases List.mem_cons.mp hmem with h1 | h1
      · exact absurd h1 hdc
      · exact h1
  · intro d hd
    have hd' : updSt w.st c CoroState.notRunning d = CoroState.blocked := hd
    by_cases hdc : d = c
    · subst hdc
      rw [updSt_self] at hd'
      exact absurd hd' (by simp)
    · rw [updSt_other _ _ _ _ hdc] at hd'
      have hboff := h.blocked_off d hd'
      constructor
      · intro hmem
        exact hboff.1 (by rw [hw]; exact List.mem_cons_of_mem _ hmem)
      · intro hmem
        rcases List.mem_cons.mp hmem with h1 | h1
        · exact hdc h1
        · exact hboff.2 h1
  · exact List.nodup_cons.mpr ⟨hcnotidle, h.idle_nodup⟩
  · intro d hd
    have hdrun : d ∈ w.runList := by
      rw [hw]
      exact List.mem_cons_of_mem _ hd
    intro hmem
    rcases List.mem_cons.mp hmem with h1 | h1
    · subst h1
      exact hcnotrest hd
    · exact h.run_idle_disjoint d hdrun h1
  · intro d hd
    exact h.run_lt d (by rw [hw]; exact List.mem_cons_of_mem _ hd)
  · intro d hd
    rcases List.mem_cons.mp hd with h1 | h1
    · subst h1
      exact hclt
    · exact h.idle_lt d h1
  · intro d hdn
    have hdn' : w.nextId ≤ d := hdn
    have hdc : d ≠ c := by omega
    show updSt w.st c CoroState.notRunning d = CoroState.notRunning
    rw [updSt_other _ _ _ _ hdc]
    exact h.tail_notRunning d hdn'
  · show updSt w.st c CoroState.notRunning 0 = CoroState.notRunning
    rw [updSt_other _ _ _ _ fun hx => hc hx.symm]
    exact h.first_notRunning
  · intro d hd
    rcases List.mem_cons.mp hd with h1 | h1
    · subst h1
      exact hc
    · exact h.idle_nonzero d h1

/-- Helper: `coroutineCreate` with an empty idle list preserves the
scheduler invariant. -/
theorem schedInv_createEmpty (w : SchedWorld) (h : SchedInv w) :
    SchedInv (createEmptyEffect w) := by
  refine ⟨?_, ?_, h.run_nodup, ?_, ?_, ?_, ?_, ?_, ?_, ?_, ?_⟩
  · intro d hd
    have hd' : updSt (updSt w.st w.nextId CoroState.blocked) (w.nextId + 1)
        CoroState.notRunning d = CoroState.running := hd
    by_cases hd1 : d = w.nextId + 1
    · subst hd1
      rw [updSt_self] at hd'
      exact absurd hd' (by simp)
    · rw [updSt_other _ _ _ _ hd1] at hd'
      by_cases hd2 : d = w.nextId
      · subst hd2
        rw [updSt_self] at hd'
        exact absurd hd' (by simp)
      · rw [updSt_other _ _ _ _ hd2] at hd'
        exact h.running_mem d hd'
  · intro d hd
    have hd' : updSt (updSt w.st w.nextId CoroState.blocked) (w.nextId + 1)
        CoroState.notRunning d = CoroState.blocked := hd
    by_cases hd1 : d = w.nextId + 1
    · subst hd1
      rw [updSt_self] at hd'
      exact absurd hd' (by simp)
    · rw [updSt_other _ _ _ _ hd1] at hd'
      by_cases hd2 : d = w.nextId
      · subst hd2
        constructor
        · intro hmem
          have := h.run_lt w.nextId hmem
          omega
        · intro hmem
          have hmem' : w.nextId ∈ [w.nextId + 1] := hmem
          simp at hmem'
      · rw [updSt_other _ _ _ _ hd2] at hd'
        have hboff := h.blocked_off d hd'
        have hdlt : d < w.nextId := by
          by_contra hx
          have := h.tail_notRunning d (by omega)
          rw [hd'] at this
          exact absurd this (by simp)
        refine ⟨hboff.1, ?_⟩
        show d ∉ [w.nextId + 1]
        simp
        omega
  · show ([w.nextId + 1] : List Nat).Nodup
    simp
  · intro d hd
    have := h.run_lt d hd
    show d ∉ [w.nextId + 1]
    simp
    omega
  · intro d hd
    have hd' : d < w.nextId := h.run_lt d hd
    show d < w.nextId + 2
    omega
  · intro d hd
    have hd' : d ∈ [w.nextId + 1] := hd
    simp at hd'
    subst hd'
    show w.nextId + 1 < w.nextId + 2
    omega
  · intro d hdn
    have hdn' : w.nextId + 2 ≤ d := hdn
    show updSt (updSt w.st w.nextId CoroState.blocked) (w.nextId + 1)
        CoroState.notRunning d = CoroState.notRunning
    rw [updSt_other _ _ _ _ (by omega), updSt_other _ _ _ _ (by omega)]
    exact h.tail_notRunning d (by omega)
  · have hp := h.nextId_pos
    show updSt (updSt w.st w.nextId CoroState.blocked) (w.nextId + 1)
        CoroState.notRunning 0 = CoroState.notRunning
    rw [updSt_other _ _ _ _ (by omega), updSt_other _ _ _ _ (by omega)]
    exact h.first_notRunning
  · intro d hd
    have hd' : d ∈ [w.nextId + 1] := hd
    simp at hd'
    omega
  · show 0 < w.nextId + 2
    omega

/-- Helper: `coroutineCreate` activating a fresh carved record preserves the
scheduler invariant. -/
theorem schedInv_createFresh (w : SchedWorld) (c : Nat) (rest : List Nat)
    (h : SchedInv w) (hidle : w.idleList = c :: rest) :
    SchedInv (createFreshEffect w c rest) := by
  have hcid : c ∈ w.idleList := by
    rw [hidle]
    exact List.mem_cons_self c rest
  have hclt := h.idle_lt c hcid
  have hc0 := h.idle_nonzero c hcid
  have hcrun : c ∉ w.runList := fun hmem => h.run_idle_disjoint c hmem hcid
  have hnodup := h.idle_nodup
  rw [hidle] at hnodup
  have hcnotrest : c ∉ rest := (List.nodup_cons.mp hnodup).1
  have hrestnd : rest.Nodup := (List.nodup_cons.mp hnodup).2
  have hrestlt : ∀ d, d ∈ rest → d < w.nextId := fun d hd =>
    h.idle_lt d (by rw [hidle]; exact List.mem_cons_of_mem _ hd)
  refine ⟨?_, ?_, h.run_nodup, ?_, ?_, ?_, ?_, ?_, ?_, ?_, ?_⟩
  · intro d hd
    have hd' : updSt w.st c CoroState.blocked d = CoroState.running := hd
    by_cases hdc : d = c
    · subst hdc
      rw [updSt_self] at hd'
      exact absurd hd' (by simp)
    · rw [updSt_other _ _ _ _ hdc] at hd'
      exact h.running_mem d hd'
  · intro d hd
    have hd' : updSt w.st c CoroState.blocked d = CoroState.blocked := hd
    by_cases hdc : d = c
    · subst hdc
      refine ⟨hcrun, ?_⟩
      show d ∉ w.nextId :: rest
      intro hmem
      rcases List.mem_cons.mp hmem with h1 | h1
      · omega
      · exact hcnotrest h1
    · rw [updSt_other _ _ _ _ hdc] at hd'
      have hboff := h.blocked_off d hd'
      have hdidle := hboff.2
      rw [hidle] at hdidle
      have hdlt : d < w.nextId := by
        by_contra hx
        have := h.tail_notRunning d (by omega)
        rw [hd'] at this
        exact absurd this (by simp)
      refine ⟨hboff.1, ?_⟩
      show d ∉ w.nextId :: rest
      intro hmem
      rcases List.mem_cons.mp hmem with h1 | h1
      · omega
      · exact hdidle (List.mem_cons_of_mem _ h1)
  · show (w.nextId :: rest).Nodup
    refine List.nodup_cons.mpr ⟨?_, hrestnd⟩
    intro hmem
    have := hrestlt _ hmem
    omega
  · intro d hd
    have hdlt := h.run_lt d hd
    show d ∉ w.nextId :: rest
    intro hmem
    rcases List.mem_cons.mp hmem with h1 | h1
    · omega
    · exact h.run_idle_disjoint d hd (by rw [hidle]; exact List.mem_cons_of_mem _ h1)
  · intro d hd
    have := h.run_lt d hd
    show d < w.nextId + 1
    omega
  · intro d hd
    have hd' : d ∈ w.nextId :: rest := hd
    show d < w.nextId + 1
    rcases List.mem_cons.mp hd' with h1 | h1
    · omega
    · have := hrestlt _ h1
      omega
  · intro d hdn
    have hdn' : w.nextId + 1 ≤ d := hdn
    show updSt w.st c CoroState.blocked d = CoroState.notRunning
    rw [updSt_other _ _ _ _ (by omega)]
    exact h.tail_notRunning d (by omega)
  · show updSt w.st c CoroState.blocked 0 = CoroState.notRunning
    rw [updSt_other _ _ _ _ fun hx => hc0 hx.symm]
    exact h.first_notRunning
  · intro d hd
    have hd' : d ∈ w.nextId :: rest := hd
    rcases List.mem_cons.mp hd' with h1 | h1
    · have := h.nextId_pos
      omega
    · exact h.idle_nonzero d (by rw [hidle]; exact List.mem_cons_of_mem _ h1)
  · show 0 < w.nextId + 1
    omega

/-- Helper: `coroutineCreate` activating a recycled record preserves the
scheduler invariant. -/
theorem schedInv_createRecycled (w : SchedWorld) (c : Nat) (rest : List Nat)
    (h : SchedInv w) (hidle : w.idleList = c :: rest) :
    SchedInv (createRecycledEffect w c rest) := by
  have hcid : c ∈ w.idleList := by
    rw [hidle]
    exact List.mem_cons_self c rest
  have hc0 := h.idle_nonzero c hcid
  have hcrun : c ∉ w.runList := fun hmem => h.run_idle_disjoint c hmem hcid
  have hnodup := h.idle_nodup
  rw [hidle] at hnodup
  have hcnotrest : c ∉ rest := (List.nodup_cons.mp hnodup).1
  have hrestnd : rest.Nodup := (List.nodup_cons.mp hnodup).2
  refine ⟨?_, ?_, h.run_nodup, hrestnd, ?_, ?_, ?_, ?_, ?_, ?_, h.nextId_pos⟩
  · intro d hd
    have hd' : updSt w.st c CoroState.blocked d = CoroState.running := hd
    by_cases hdc : d = c
    · subst hdc
      rw [updSt_self] at hd'
      exact absurd hd' (by simp)
    · rw [updSt_other _ _ _ _ hdc] at hd'
      exact h.running_mem d hd'
  · intro d hd
    have hd' : updSt w.st c CoroState.blocked d = CoroState.blocked := hd
    by_cases hdc : d = c
    · subst hdc
      exact ⟨hcrun, hcnotrest⟩
    · rw [updSt_other _ _ _ _ hdc] at hd'
      have hboff := h.blocked_off d hd'
      refine ⟨hboff.1, fun hmem => ?_⟩
      exact hboff.2 (by rw [hidle]; exact List.mem_cons_of_mem _ hmem)
  · intro d hd
    intro hmem
    exact h.run_idle_disjoint d hd (by rw [hidle]; exact List.mem_cons_of_mem _ hmem)
  · exact h.run_lt
  · intro d hd
    exact h.idle_lt d (by rw [hidle]; exact List.mem_cons_of_mem _ hd)
  · intro d hdn
    have hdn' : w.nextId ≤ d := hdn
    have hclt := h.idle_lt c hcid
    show updSt w.st c CoroState.blocked d = CoroState.notRunning
    rw [updSt_other _ _ _ _ (by omega)]
    exact h.tail_notRunning d hdn'
  · show updSt w.st c CoroState.blocked 0 = CoroState.notRunning
    rw [updSt_other _ _ _ _ fun hx => hc0 hx.symm]
    exact h.first_notRunning
  · intro d hd
    exact h.idle_nonzero d (by rw [hidle]; exact List.mem_cons_of_mem _ hd)

/-- Helper: every scheduler operation preserves the invariant. -/
theorem schedInv_step {w w' : SchedWorld} (h : SchedInv w)
    (s : SchedStep w w') : SchedInv w' := by
  cases s with
  | yieldOp arg => exact schedInv_yield w arg h
  | resumeOp c arg hb hr => exact schedInv_resume w c arg h hb hr
  | resumeFailOp t hn => exact h
  | completeOp c rest ret hw hc => exact schedInv_complete w c rest ret h hw hc
  | createEmptyOp hidle => exact schedInv_createEmpty w h
  | createFreshOp c rest hidle hf => exact schedInv_createFresh w c rest h hidle
  | createRecycledOp c rest hidle hf =>
    exact schedInv_createRecycled w c rest h hidle

/-- Helper: every reachable world satisfies the scheduler invariant. -/
theorem schedReachable_inv (w : SchedWorld) (hw : SchedReachable w) :
    SchedInv w := by
  induction hw with
  | refl => exact schedInv_initial
  | tail _ hstep ih => exact schedInv_step ih hstep

/-- Claim C7 counterexample: in the reachable world where the first coroutine
resumed coroutine 1 and coroutine 1 then resumed coroutine 2, both 1 and 2
have state RUNNING (`coroutineResume` never changes the caller's state field,
so a coroutine suspended inside an outstanding resume stays RUNNING), and the
RUNNING coroutine 1 is not the head of the running list.  This refutes "at
most one coroutine is in state Running, and it is the head of the running
list". -/
theorem single_running_counterexample :
    SchedReachable nestedResumeWorld ∧
    nestedResumeWorld.st 1 = CoroState.running ∧
    nestedResumeWorld.st 2 = CoroState.running ∧
    nestedResumeWorld.runList.head? = some 2 ∧
    ¬(∀ c d, nestedResumeWorld.st c = CoroState.running →
        nestedResumeWorld.st d = CoroState.running → c = d) := by
  refine ⟨?_, by decide, by decide, by decide, ?_⟩
  · refine Relation.ReflTransGen.tail (Relation.ReflTransGen.tail
      (Relation.ReflTransGen.tail
        (Relation.ReflTransGen.single
          (SchedStep.createEmptyOp initialWorld rfl))
        (SchedStep.createFreshOp (createEmptyEffect initialWorld) 2 []
          (by decide) (by decide)))
      (SchedStep.resumeOp
        (createFreshEffect (createEmptyEffect initialWorld) 2 []) 1 none
        (by decide) (by decide)))
      (SchedStep.resumeOp
        (resumeEffect (createFreshEffect (createEmptyEffect initialWorld) 2 [])
          1 none) 2 none (by decide) (by decide))
  · intro hall
    have h12 := hall 1 2 (by decide) (by decide)
    omega

/-- Claim C7 amended: at most one coroutine is actively executing on a host
thread, and it is the head of the running list; but the state field of every
coroutine suspended inside an outstanding `coroutineResume` stays RUNNING, so
several coroutines can be in state RUNNING at once.  What holds for the state
field is: in every reachable world, every coroutine whose state is RUNNING is
on the running list. -/
theorem running_implies_on_runList (w : SchedWorld) (hw : SchedReachable w) :
    ∀ c, w.st c = CoroState.running → c ∈ w.runList :=
  (schedReachable_inv w hw).running_mem

/-- Witness for `running_implies_on_runList`: the nested-resume world is
reachable and its RUNNING coroutines 1 and 2 are both on the running list. -/
theorem running_implies_on_runList_witness :
    SchedReachable initialWorld ∧
    (∀ c, initialWorld.st c = CoroState.running → c ∈ initialWorld.runList) :=
  ⟨Relation.ReflTransGen.refl,
    running_implies_on_runList initialWorld Relation.ReflTransGen.refl⟩

/-- Claim C8 counterexample: the world reached by the first `coroutineCreate`
call has idle list `[2]`, and record 2, being its last element, has a NULL
`next` link; `coroutineResumable` (Coroutines.c lines 86-88) therefore
accepts it, and `coroutineResume` applied to it does not return
`COROUTINE_NOT_RESUMABLE` but pushes it onto the running list.  This refutes
"resume on a target already on the idle list returns NotResumable and does
not modify the running list". -/
theorem resume_idle_bottom_counterexample :
    SchedReachable (createEmptyEffect initialWorld) ∧
    2 ∈ (createEmptyEffect initialWorld).idleList ∧
    (coroutineResume (createEmptyEffect initialWorld) (some 2) none).2 =
      ResumeOutcome.switchedTo 2 ∧
    (coroutineResume (createEmptyEffect initialWorld) (some 2) none).1.runList
      = [2, 0] :=
  ⟨Relation.ReflTransGen.single (SchedStep.createEmptyOp initialWorld rfl),
    by decide, by decide, by decide⟩

/-- Claim C8 amended: `coroutineResume` returns `COROUTINE_NOT_RESUMABLE`
and changes nothing exactly when the target is NULL or its `next` link is
non-NULL; that covers every coroutine on the running list (they sit above the
first record) and every idle-list coroutine except the last, but the last
element of the idle list has a NULL `next` link and is treated as
resumable. -/
theorem resume_nonresumable_rejected (w : SchedWorld) (t : Option Nat)
    (arg : Option Nat)
    (h : t = none ∨ ∃ c, t = some c ∧ nextPtrW w c ≠ none) :
    coroutineResume w t arg = (w, ResumeOutcome.notResumable) := by
  rcases h with rfl | ⟨c, rfl, hc⟩
  · rfl
  · have hfalse : (nextPtrW w c).isNone = false := by
      cases hnp : nextPtrW w c with
      | none => exact absurd hnp hc
      | some v => rfl
    simp [coroutineResume, hfalse]

/-- Witness for `resume_nonresumable_rejected`: resuming coroutine 1, which
sits in the middle of the running list `[2, 1, 0]` and so has a non-NULL
`next` link, is rejected without modification. -/
theorem resume_nonresumable_rejected_witness :
    ((some 1 : Option Nat) = none ∨
      ∃ c, (some 1 : Option Nat) = some c ∧ nextPtrW stackedRunWorld c ≠ none) ∧
    coroutineResume stackedRunWorld (some 1) none =
      (stackedRunWorld, ResumeOutcome.notResumable) :=
  ⟨Or.inr ⟨1, rfl, by decide⟩,
    resume_nonresumable_rejected stackedRunWorld (some 1) none
      (Or.inr ⟨1, rfl, by decide⟩)⟩

/-- Claim C9: a `coroutineYield` made while the first coroutine (id 0) is the
current coroutine (the head of the running list) returns NULL and changes
nothing — in particular the running and idle lists are untouched
(Coroutines.h lines 927-937). -/
theorem yield_from_first_returns_null (w : SchedWorld) (arg : Option Nat)
    (h : w.runList.head? = some 0) :
    coroutineYield w arg = (w, YieldOutcome.returnedNull) := by
  rcases hrl : w.runList with _ | ⟨c, rest⟩
  · rw [hrl] at h
    simp at h
  · rw [hrl] at h
    simp only [List.head?_cons, Option.some.injEq] at h
    subst h
    simp [coroutineYield, hrl]

/-- Witness for `yield_from_first_returns_null`: yielding in the initial
world, whose running list is `[0]`, is a no-op returning NULL. -/
theorem yield_from_first_returns_null_witness :
    initialWorld.runList.head? = some 0 ∧
    coroutineYield initialWorld none =
      (initialWorld, YieldOutcome.returnedNull) :=
  ⟨rfl, yield_from_first_returns_null initialWorld none rfl⟩

/-- Witness for `comutexUnlock_owner_only`: a mutex owned by coroutine 3 with
level 1 is released by an unlock from coroutine 3. -/
theorem comutexUnlock_owner_only_witness :
    comutexUnlock 3 (some
        { lastYieldValue := none, type := comutexPlain,
          coroutine := some 3, recursionLevel := 1 }) =
      (coroutineSuccess, some
        { lastYieldValue := none, type := comutexPlain,
          coroutine := none, recursionLevel := 0 }) := by
  have h := (comutexUnlock_owner_only 3 (some
    { lastYieldValue := none, type := comutexPlain,
      coroutine := some 3, recursionLevel := 1 })).2.1
    { lastYieldValue := none, type := comutexPlain,
      coroutine := some 3, recursionLevel := 1 } rfl rfl
  simpa using h

end Coroutines
